import Mathlib

/-!
Shallow embedding of `src/apod_desktop.py` (COMP 593 final project).

The program is a single linear workflow: validate a directory argument and
an optional date argument, fetch APOD metadata, fetch the image, compute a
hex digest, check a one-table sqlite database for that digest, possibly
write the file and insert a record, and set the desktop background.

Modelling conventions:
- the sqlite `apod` table is a `List ApodRecord`, and the three database
  helpers are expressed through a tiny statement semantics `runStmt`
  (CREATE TABLE IF NOT EXISTS, INSERT, SELECT ... WHERE image_sha256=?);
- the SHA-256 hex digest is an uninterpreted parameter
  `hashHex : List Nat → String` of the run environment; `str.encode()`
  (UTF-8) is `strEncode`;
- HTTP responses are supplied by the environment: `fetch k` is the body of
  the k-th GET of the image URL issued during the run (the source issues
  two such GETs: one on line 49 to measure the size, one on line 164 to
  obtain the bytes that are saved);
- observable side effects (prints, sqlite connects, network GETs, file
  writes, the wallpaper call, `exit`) are recorded as an `Event` trace in
  source order; `datetime.strptime(s, %Y-%m-%d)` validation is
  `strptimeYmd`, and `datetime.today().isoformat()` is `isoformatDatetime`
  applied to the environment's clock value.
-/

namespace ApodDesktop

/-- One row of the `apod` table created by `create_image_db`:
`(image_location TEXT, image_size INTEGER, image_sha256 TEXT, time_added TEXT)`. -/
structure ApodRecord where
  image_location : String
  image_size : Nat
  image_sha256 : String
  time_added : String
deriving DecidableEq, Repr

/-- The SQL statements the program executes against the database. -/
inductive SqlStmt where
  | createTableIfNotExists
  | insertApod (r : ApodRecord)
  | selectSha (h : String)
deriving DecidableEq, Repr

/-- Semantics of one SQL statement on the `apod` table: CREATE TABLE IF NOT
EXISTS leaves the rows unchanged, INSERT appends a row, and the SELECT used by
`image_already_in_db` returns the `image_sha256` column of the matching rows
without touching the table. -/
def runStmt (db : List ApodRecord) : SqlStmt → List ApodRecord × List String
  | SqlStmt.createTableIfNotExists => (db, [])
  | SqlStmt.insertApod r => (db ++ [r], [])
  | SqlStmt.selectSha h =>
      (db, (db.filter (fun r => r.image_sha256 == h)).map (fun r => r.image_sha256))

/-- `create_image_db`: runs CREATE TABLE IF NOT EXISTS and commits. -/
def create_image_db (db : List ApodRecord) : List ApodRecord :=
  (runStmt db SqlStmt.createTableIfNotExists).1

/-- `add_image_to_db`: inserts one row `(image_path, image_size, image_sha256,
current_time)` and commits. -/
def add_image_to_db (db : List ApodRecord) (image_path : String) (image_size : Nat)
    (image_sha256 : String) (current_time : String) : List ApodRecord :=
  (runStmt db (SqlStmt.insertApod ⟨image_path, image_size, image_sha256, current_time⟩)).1

/-- `image_already_in_db`: runs
`SELECT image_sha256 FROM apod WHERE image_sha256=?`, fetches all rows, and
returns True when at least one row matched.  The first component is the table
after the call (the call only queries). -/
def image_already_in_db (db : List ApodRecord) (image_sha256 : String) :
    List ApodRecord × Bool :=
  let dbres := runStmt db (SqlStmt.selectSha image_sha256)
  (dbres.1, decide (1 ≤ dbres.2.length))

/-- Splits a character list at every character satisfying `p`; the separators
are dropped and empty groups are kept, matching Python `str.split(sep)` for a
single-character separator. -/
def splitBy (p : Char → Bool) : List Char → List (List Char)
  | [] => [[]]
  | c :: cs =>
    if p c then [] :: splitBy p cs
    else
      match splitBy p cs with
      | [] => [[c]]
      | g :: gs => (c :: g) :: gs

/-- Windows path separators, as recognised by `ntpath` (the `os.path` of the
platform this program runs on: it calls `ctypes.windll`). -/
def isSepChar (c : Char) : Bool := c == '/' || c == '\\'

/-- `os.path.basename`: everything after the last path separator. -/
def basename (p : String) : String :=
  String.mk ((splitBy isSepChar p.data).getLastD [])

/-- `get_image_path`: `image_path = dir_path + chr(92) + path.basename(image_url)`
(the source concatenates with a literal backslash). -/
def get_image_path (image_url : String) (dir_path : String) : String :=
  dir_path ++ "\\" ++ basename image_url

/-- `os.path.join` under Windows rules, restricted to the shapes the program
uses (no drive-relative second argument). -/
def os_path_join (a b : String) : String :=
  if a.data = [] then b
  else if isSepChar (a.data.getLastD ' ') then a ++ b
  else a ++ "\\" ++ b

/-- Gregorian leap year, as used by Python `datetime`. -/
def isLeap (y : Nat) : Bool := (y % 4 == 0 && y % 100 != 0) || y % 400 == 0

/-- Days in a month, as validated by Python `datetime`. -/
def daysInMonth (y m : Nat) : Nat :=
  if m == 2 then (if isLeap y then 29 else 28)
  else if m == 4 || m == 6 || m == 9 || m == 11 then 30 else 31

/-- Value of an ASCII decimal digit. -/
def digitVal (c : Char) : Nat := c.toNat - 48

/-- The year group of CPython strptime, compiled from the Y directive as
exactly four digits; returns the value and the remaining characters. -/
def parseYear4 : List Char → Option (Nat × List Char)
  | a :: b :: c :: d :: rest =>
      if a.isDigit ∧ b.isDigit ∧ c.isDigit ∧ d.isDigit then
        some (1000 * digitVal a + 100 * digitVal b + 10 * digitVal c + digitVal d,
              rest)
      else none
  | _ => none

/-- The month group of CPython strptime, the alternation
`1[0-2]|0[1-9]|[1-9]` tried in order.  When a two-digit alternative fails,
the single-digit fallback consumes one character and leaves the rest (the
caller then requires a dash, which a digit can never satisfy, so this
deterministic reading agrees with regex backtracking). -/
def parseMonth : List Char → Option (Nat × List Char)
  | '1' :: c :: rest =>
      if '0' ≤ c ∧ c ≤ '2' then some (10 + digitVal c, rest)
      else some (1, c :: rest)
  | '0' :: c :: rest =>
      if '1' ≤ c ∧ c ≤ '9' then some (digitVal c, rest) else none
  | c :: rest =>
      if '1' ≤ c ∧ c ≤ '9' then some (digitVal c, rest) else none
  | [] => none

/-- The day group of CPython strptime, the alternation
`3[01]|[12]d|0[1-9]|[1-9]|space[1-9]` (d standing for a digit) tried in
order; nothing follows the group in the pattern, so the first alternative
matching at the position wins and any leftover characters are the
"unconverted data remains" error, never a reason to backtrack. -/
def parseDay : List Char → Option (Nat × List Char)
  | '3' :: c :: rest =>
      if c = '0' ∨ c = '1' then some (30 + digitVal c, rest)
      else some (3, c :: rest)
  | ['3'] => some (3, [])
  | '0' :: c :: rest =>
      if '1' ≤ c ∧ c ≤ '9' then some (digitVal c, rest) else none
  | ' ' :: c :: rest =>
      if '1' ≤ c ∧ c ≤ '9' then some (digitVal c, rest) else none
  | c :: d :: rest =>
      if ('1' ≤ c ∧ c ≤ '2') ∧ d.isDigit then
        some (10 * digitVal c + digitVal d, rest)
      else if '1' ≤ c ∧ c ≤ '9' then some (digitVal c, d :: rest)
      else none
  | [c] => if '1' ≤ c ∧ c ≤ '9' then some (digitVal c, []) else none
  | [] => none

/-- Whether `datetime.strptime(s, percent-Y-percent-m-percent-d)` succeeds:
the compiled pattern is four digits, a dash, the month alternation, a dash,
the day alternation (ASCII digits), the whole string must be consumed, and
the datetime constructor then checks year at least 1 (at most 9999 is forced
by the four digits) and the day against the month's length. -/
def strptimeYmd (s : String) : Bool :=
  match parseYear4 s.data with
  | none => false
  | some (y, r1) =>
    match r1 with
    | '-' :: r2 =>
      match parseMonth r2 with
      | none => false
      | some (m, r3) =>
        match r3 with
        | '-' :: r4 =>
          match parseDay r4 with
          | none => false
          | some (d, r5) =>
            decide (r5 = []) && decide (1 ≤ y) && decide (d ≤ daysInMonth y m)
        | _ => false
    | _ => false

/-- The value of Python `datetime.today()`: a wall-clock timestamp. -/
structure PyDateTime where
  year : Nat
  month : Nat
  day : Nat
  hour : Nat
  minute : Nat
  second : Nat
  microsecond : Nat
deriving DecidableEq, Repr

/-- Decimal rendering of `n` left-padded with zeros to `width` digits. -/
def padNum (width n : Nat) : String :=
  let s := toString n
  String.mk (List.replicate (width - s.data.length) '0') ++ s

/-- `datetime.isoformat()`: `YYYY-MM-DDTHH:MM:SS`, with `.ffffff` appended
when the microsecond field is nonzero. -/
def isoformatDatetime (t : PyDateTime) : String :=
  padNum 4 t.year ++ "-" ++ padNum 2 t.month ++ "-" ++ padNum 2 t.day ++ "T" ++
  padNum 2 t.hour ++ ":" ++ padNum 2 t.minute ++ ":" ++ padNum 2 t.second ++
  (if t.microsecond == 0 then "" else "." ++ padNum 6 t.microsecond)

/-- UTF-8 encoding of one code point. -/
def utf8Bytes (c : Char) : List Nat :=
  let n := c.toNat
  if n < 0x80 then [n]
  else if n < 0x800 then [0xC0 + n / 0x40, 0x80 + n % 0x40]
  else if n < 0x10000 then
    [0xE0 + n / 0x1000, 0x80 + (n / 0x40) % 0x40, 0x80 + n % 0x40]
  else
    [0xF0 + n / 0x40000, 0x80 + (n / 0x1000) % 0x40, 0x80 + (n / 0x40) % 0x40,
     0x80 + n % 0x40]

/-- UTF-8 encoding of a string, the meaning of Python `s.encode()`. -/
def strEncode (s : String) : List Nat :=
  s.data.flatMap utf8Bytes

/-- Observable side effects of a run, in source order. -/
inductive Event where
  | printEv (s : String)
  | dbConnect (dbPath : String)
  | netGet (url : String)
  | fileWrite (filePath : String) (contents : List Nat)
  | setWallpaper (filePath : String)
  | exitEv (msg : String)
  | pyError (msg : String)
deriving DecidableEq, Repr

def isPrintEv : Event → Bool
  | Event.printEv _ => true
  | _ => false

def isDbConnectEv : Event → Bool
  | Event.dbConnect _ => true
  | _ => false

def isNetGetEv : Event → Bool
  | Event.netGet _ => true
  | _ => false

def isFileWriteEv : Event → Bool
  | Event.fileWrite _ _ => true
  | _ => false

def isWallpaperEv : Event → Bool
  | Event.setWallpaper _ => true
  | _ => false

def isExitEv : Event → Bool
  | Event.exitEv _ => true
  | _ => false

def isPyErrorEv : Event → Bool
  | Event.pyError _ => true
  | _ => false

/-- The bytes written by the `fileWrite` events of a trace. -/
def writtenBytes (es : List Event) : List (List Nat) :=
  es.filterMap (fun e =>
    match e with
    | Event.fileWrite _ bs => some bs
    | _ => none)

/-- `get_image_dir_path`: accepts `argv[1]` when `len(argv[1]) >= 2` and
`path.isdir(argv[1])`; otherwise prints an error and exits.  When `argv[1]`
does not exist, Python raises an unhandled IndexError.  Returns the printed
events together with the result (`none` means the process terminated). -/
def get_image_dir_path (isdir : String → Bool) (argv : List String) :
    List Event × Option String :=
  match argv[1]? with
  | none => ([Event.pyError "IndexError: list index out of range"], none)
  | some arg1 =>
    if 2 ≤ arg1.data.length then
      if isdir arg1 then
        ([Event.printEv ("Images directory: " ++ arg1)], some arg1)
      else
        ([Event.printEv ("Error: Non-existent directory " ++ arg1),
          Event.exitEv "Script execution aborted"], none)
    else
      ([Event.printEv "Error: Missing path parameter.",
        Event.exitEv "Script execution aborted"], none)

/-- `get_apod_date`: when `len(argv) >= 3`, validates `argv[2]` with
`strptime(s, percent-Y-percent-m-percent-d)` and exits on failure; otherwise
returns `datetime.today().isoformat()` unvalidated. -/
def get_apod_date (argv : List String) (today : PyDateTime) :
    List Event × Option String :=
  match argv[2]? with
  | some apod_date =>
    if strptimeYmd apod_date then
      ([Event.printEv ("APOD date: " ++ apod_date)], some apod_date)
    else
      ([Event.printEv "Error: Incorrect date format; Should be YYYY-MM-DD",
        Event.exitEv "Script execution aborted"], none)
  | none =>
    ([Event.printEv ("APOD date: " ++ isoformatDatetime today)],
     some (isoformatDatetime today))

/-- The NASA APOD endpoint queried by `get_apod_info`, with the date appended
as the `date` query parameter by `requests`. -/
def apodUrlFor (apod_date : String) : String :=
  "https://api.nasa.gov/planetary/apod?api_key=k3C4uX9rjMstIF0L157GikrllFdp0TVVuJkijxUp&date="
  ++ apod_date

/-- External inputs of one run: `path.isdir`, `sys.argv`, the clock, the
metadata response's `url` field, the bodies of the successive GETs of the
image URL, `datetime.now().strftime(...)`, and the SHA-256 hex digest
function (uninterpreted). -/
structure Env where
  isdir : String → Bool
  argv : List String
  today : PyDateTime
  image_url : String
  fetch : Nat → List Nat
  timeNow : String
  hashHex : List Nat → String

/-- The digest the run computes and stores:
`sha256(image_url.encode()).hexdigest()` — the digest of the URL string's
UTF-8 bytes (line 48 of the source). -/
def computedSha (env : Env) : String :=
  env.hashHex (strEncode env.image_url)

/-- The row inserted by a run that reaches `add_image_to_db`. -/
def insertedRecord (env : Env) : ApodRecord :=
  ⟨get_image_path env.image_url ((env.argv[1]?).getD ""),
   (env.fetch 0).length, computedSha env, env.timeNow⟩

/-- Body of `main` after both arguments validated (source lines 41-65):
create the table, GET the metadata, compute the digest of the URL, GET the
image once for its length and once for its bytes, print the info, check the
store, and when the digest is absent write the file and insert the record;
finally set the wallpaper. -/
def mainCore (env : Env) (image_dir_path : String) (apod_date : String)
    (db : List ApodRecord) : List Event × List ApodRecord :=
  let db1 := create_image_db db
  let image_url := env.image_url
  let image_sha256 := env.hashHex (strEncode image_url)
  let image_size := (env.fetch 0).length
  let image_path := get_image_path image_url image_dir_path
  let image_msg := env.fetch 1
  let db_path := os_path_join image_dir_path "apod_images.db"
  let evs := [Event.dbConnect db_path, Event.netGet (apodUrlFor apod_date),
              Event.netGet image_url, Event.netGet image_url,
              Event.printEv image_url, Event.printEv image_path,
              Event.printEv (toString image_size ++ " bytes"),
              Event.printEv image_sha256,
              Event.dbConnect db_path]
  let check := image_already_in_db db1 image_sha256
  if check.2 then
    (evs ++ [Event.setWallpaper image_path], check.1)
  else
    (evs ++ [Event.fileWrite image_path image_msg,
             Event.dbConnect db_path,
             Event.setWallpaper image_path],
     add_image_to_db check.1 image_path image_size image_sha256 env.timeNow)

/-- One run of `main`: resolve the directory, resolve the date, then the core
workflow; an `exit` (or IndexError) in a resolver stops the run with the
database unchanged. -/
def mainRun (env : Env) (db : List ApodRecord) : List Event × List ApodRecord :=
  let dirres := get_image_dir_path env.isdir env.argv
  match dirres.2 with
  | none => (dirres.1, db)
  | some image_dir_path =>
    let dateres := get_apod_date env.argv env.today
    match dateres.2 with
    | none => (dirres.1 ++ dateres.1, db)
    | some apod_date =>
      let core := mainCore env image_dir_path apod_date db
      (dirres.1 ++ dateres.1 ++ core.1, core.2)

/-- Folding `mainRun` over a sequence of run environments. -/
def runAll (envs : List Env) (db : List ApodRecord) : List ApodRecord :=
  envs.foldl (fun d e => (mainRun e d).2) db

/-- The `image_sha256` column of the table. -/
def dbHashes (db : List ApodRecord) : List String :=
  db.map (fun r => r.image_sha256)

/-- A database state reachable by a sequence of `add_image_to_db` calls
starting from the empty table; each call is `(path, size, sha, time)`. -/
def buildDB (calls : List (String × Nat × String × String)) : List ApodRecord :=
  calls.foldl (fun d c => add_image_to_db d c.1 c.2.1 c.2.2.1 c.2.2.2) []

/-- A stand-in hex-digest function for concrete evaluations (the digest is
uninterpreted in the model; any concrete function exhibits the data flow). -/
def demoHashHex (bs : List Nat) : String := "h" ++ toString bs

/-- A concrete run environment: existing directory, no date argument, image
URL resolving to the bytes `[1, 2, 3]` on every GET. -/
def demoEnv : Env :=
  ⟨fun _ => true, ["apod_desktop.py", "C:\\apod"], ⟨2026, 10, 12, 8, 30, 0, 123456⟩,
   "https://x/img.jpg", fun _ => [1, 2, 3], "2026-/10-/12 08:30:00", demoHashHex⟩

/-- Like `demoEnv` but the two GETs of the image URL return different bodies:
the first (used for the size) returns one byte, the second (whose bytes are
saved) returns nothing. -/
def demoEnvTwoFetch : Env :=
  ⟨fun _ => true, ["apod_desktop.py", "C:\\apod"], ⟨2026, 10, 12, 8, 30, 0, 123456⟩,
   "https://x/img.jpg", fun k => if k == 0 then [0] else [], "2026-/10-/12 08:30:00",
   demoHashHex⟩

/-- Run environment with an invalid date argument supplied on the command
line. -/
def demoEnvBadDate : Env :=
  ⟨fun _ => true, ["apod_desktop.py", "C:\\apod", "12-31-2022"],
   ⟨2026, 10, 12, 8, 30, 0, 123456⟩, "https://x/img.jpg", fun _ => [1, 2, 3],
   "2026-/10-/12 08:30:00", demoHashHex⟩

/-- A store state already holding the digest that `demoEnv` computes. -/
def demoDbWithHash : List ApodRecord :=
  [⟨"C:\\apod\\img.jpg", 3, demoHashHex (strEncode "https://x/img.jpg"), "t"⟩]

/-! ### Helper lemmas -/

theorem create_image_db_id (db : List ApodRecord) : create_image_db db = db := rfl

theorem image_already_in_db_fst (db : List ApodRecord) (h : String) :
    (image_already_in_db db h).1 = db := rfl

theorem dbHashes_append (a b : List ApodRecord) :
    dbHashes (a ++ b) = dbHashes a ++ dbHashes b := by
  simp [dbHashes]

theorem image_already_in_db_mem (db : List ApodRecord) (h : String) :
    (image_already_in_db db h).2 = true ↔ h ∈ dbHashes db := by
  simp only [image_already_in_db, runStmt, dbHashes, decide_eq_true_eq,
    List.length_map, Nat.lt_iff_add_one_le, List.mem_map]
  rw [← Nat.lt_iff_add_one_le, List.length_pos_iff_exists_mem]
  constructor
  · rintro ⟨r, hr⟩
    rcases List.mem_filter.mp hr with ⟨hmem, hbeq⟩
    exact ⟨r, hmem, beq_iff_eq.mp hbeq⟩
  · rintro ⟨r, hmem, hr⟩
    exact ⟨r, List.mem_filter.mpr ⟨hmem, beq_iff_eq.mpr hr⟩⟩

theorem splitBy_ne_nil (p : Char → Bool) (l : List Char) : splitBy p l ≠ [] := by
  cases l with
  | nil => simp [splitBy]
  | cons c cs =>
    simp only [splitBy]
    split
    · simp
    · split
      · simp
      · simp

theorem splitBy_no_sep (p : Char → Bool) (l : List Char)
    (hl : ∀ c ∈ l, p c = false) : splitBy p l = [l] := by
  induction l with
  | nil => rfl
  | cons c cs ih =>
    have hc : p c = false := hl c (by simp)
    have hcs : ∀ x ∈ cs, p x = false := fun x hx => hl x (by simp [hx])
    simp only [splitBy, hc]
    rw [ih hcs]
    simp

theorem splitBy_append_sep (p : Char → Bool) (sep : Char) (hsep : p sep = true)
    (xs ys : List Char) (hys : ∀ c ∈ ys, p c = false) :
    splitBy p (xs ++ sep :: ys) = splitBy p xs ++ [ys] := by
  induction xs with
  | nil =>
    simp only [List.nil_append, splitBy, hsep]
    rw [splitBy_no_sep p ys hys]
    rfl
  | cons x xs ih =>
    simp only [List.cons_append, splitBy, List.append_eq]
    by_cases hx : p x = true
    · rw [if_pos hx, if_pos hx, ih]
      rfl
    · rw [if_neg hx, if_neg hx, ih]
      cases hsx : splitBy p xs with
      | nil => exact absurd hsx (splitBy_ne_nil p xs)
      | cons g gs => rfl

theorem splitBy_last_no_sep (p : Char → Bool) (l : List Char) :
    ∀ c ∈ (splitBy p l).getLastD [], p c = false := by
  induction l with
  | nil => simp [splitBy]
  | cons x xs ih =>
    intro c hc
    simp only [splitBy] at hc
    by_cases hx : p x = true
    · rw [if_pos hx, List.getLastD_cons] at hc
      exact ih c hc
    · rw [if_neg hx] at hc
      have hx' : p x = false := by simpa using hx
      cases hsx : splitBy p xs with
      | nil => exact absurd hsx (splitBy_ne_nil p xs)
      | cons g gs =>
        rw [hsx] at hc
        cases gs with
        | nil =>
          have hlast : List.getLastD [x :: g] ([] : List Char) = x :: g := rfl
          rw [hlast] at hc
          rcases List.mem_cons.mp hc with h1 | h2
          · subst h1; exact hx'
          · apply ih c
            rw [hsx]
            have : List.getLastD [g] ([] : List Char) = g := rfl
            rw [this]
            exact h2
        | cons g2 gs2 =>
          rw [List.getLastD_cons, List.getLastD_cons] at hc
          apply ih c
          rw [hsx, List.getLastD_cons, List.getLastD_cons]
          exact hc

theorem string_data_append (a b : String) : (a ++ b).data = a.data ++ b.data := rfl

theorem gidp_eq_missing (isdir : String → Bool) (argv : List String)
    (h : argv[1]? = none) :
    get_image_dir_path isdir argv =
      ([Event.pyError "IndexError: list index out of range"], none) := by
  unfold get_image_dir_path
  rw [h]

theorem gidp_eq_short (isdir : String → Bool) (argv : List String) (arg1 : String)
    (h : argv[1]? = some arg1) (h2 : ¬ 2 ≤ arg1.data.length) :
    get_image_dir_path isdir argv =
      ([Event.printEv "Error: Missing path parameter.",
        Event.exitEv "Script execution aborted"], none) := by
  unfold get_image_dir_path
  rw [h]
  dsimp only
  rw [if_neg h2]

theorem gidp_eq_nodir (isdir : String → Bool) (argv : List String) (arg1 : String)
    (h : argv[1]? = some arg1) (h2 : 2 ≤ arg1.data.length) (hd : isdir arg1 = false) :
    get_image_dir_path isdir argv =
      ([Event.printEv ("Error: Non-existent directory " ++ arg1),
        Event.exitEv "Script execution aborted"], none) := by
  unfold get_image_dir_path
  rw [h]
  dsimp only
  rw [if_pos h2, if_neg (by rw [hd]; exact Bool.false_ne_true)]

theorem gidp_eq_ok (isdir : String → Bool) (argv : List String) (arg1 : String)
    (h : argv[1]? = some arg1) (h2 : 2 ≤ arg1.data.length) (hd : isdir arg1 = true) :
    get_image_dir_path isdir argv =
      ([Event.printEv ("Images directory: " ++ arg1)], some arg1) := by
  unfold get_image_dir_path
  rw [h]
  dsimp only
  rw [if_pos h2, if_pos hd]

theorem gad_eq_default (argv : List String) (today : PyDateTime)
    (h : argv[2]? = none) :
    get_apod_date argv today =
      ([Event.printEv ("APOD date: " ++ isoformatDatetime today)],
       some (isoformatDatetime today)) := by
  unfold get_apod_date
  rw [h]

theorem gad_eq_ok (argv : List String) (today : PyDateTime) (d : String)
    (h : argv[2]? = some d) (hs : strptimeYmd d = true) :
    get_apod_date argv today = ([Event.printEv ("APOD date: " ++ d)], some d) := by
  unfold get_apod_date
  rw [h]
  dsimp only
  rw [if_pos hs]

theorem gad_eq_bad (argv : List String) (today : PyDateTime) (d : String)
    (h : argv[2]? = some d) (hs : strptimeYmd d = false) :
    get_apod_date argv today =
      ([Event.printEv "Error: Incorrect date format; Should be YYYY-MM-DD",
        Event.exitEv "Script execution aborted"], none) := by
  unfold get_apod_date
  rw [h]
  dsimp only
  rw [if_neg (by rw [hs]; exact Bool.false_ne_true)]

theorem get_image_dir_path_some_iff (isdir : String → Bool) (argv : List String)
    (x : String) :
    (get_image_dir_path isdir argv).2 = some x ↔
      (argv[1]? = some x ∧ 2 ≤ x.data.length ∧ isdir x = true) := by
  cases hv : argv[1]? with
  | none =>
    rw [gidp_eq_missing isdir argv hv]
    constructor
    · intro hs
      exact Option.noConfusion hs
    · rintro ⟨hs, -, -⟩
      exact Option.noConfusion hs
  | some arg1 =>
    by_cases h2 : 2 ≤ arg1.data.length
    · cases hd : isdir arg1 with
      | true =>
        rw [gidp_eq_ok isdir argv arg1 hv h2 hd]
        constructor
        · intro hs
          injection hs with hs
          subst hs
          exact ⟨rfl, h2, hd⟩
        · rintro ⟨hs, -, -⟩
          injection hs with hs
          rw [hs]
      | false =>
        rw [gidp_eq_nodir isdir argv arg1 hv h2 hd]
        constructor
        · intro hs
          exact Option.noConfusion hs
        · rintro ⟨hs, -, hdir⟩
          injection hs with hs
          subst hs
          rw [hd] at hdir
          exact Bool.noConfusion hdir
    · rw [gidp_eq_short isdir argv arg1 hv h2]
      constructor
      · intro hs
        exact Option.noConfusion hs
      · rintro ⟨hs, hlen, -⟩
        injection hs with hs
        subst hs
        exact absurd hlen h2

theorem get_image_dir_path_events (isdir : String → Bool) (argv : List String) :
    (get_image_dir_path isdir argv).1.filter isFileWriteEv = [] ∧
    writtenBytes (get_image_dir_path isdir argv).1 = [] ∧
    ((get_image_dir_path isdir argv).1.all
      (fun e => isPrintEv e || isExitEv e || isPyErrorEv e)) = true := by
  cases hv : argv[1]? with
  | none =>
    rw [gidp_eq_missing isdir argv hv]
    exact ⟨rfl, rfl, rfl⟩
  | some arg1 =>
    by_cases h2 : 2 ≤ arg1.data.length
    · cases hd : isdir arg1 with
      | true =>
        rw [gidp_eq_ok isdir argv arg1 hv h2 hd]
        exact ⟨rfl, rfl, rfl⟩
      | false =>
        rw [gidp_eq_nodir isdir argv arg1 hv h2 hd]
        exact ⟨rfl, rfl, rfl⟩
    · rw [gidp_eq_short isdir argv arg1 hv h2]
      exact ⟨rfl, rfl, rfl⟩

theorem get_apod_date_events (argv : List String) (today : PyDateTime) :
    (get_apod_date argv today).1.filter isFileWriteEv = [] ∧
    writtenBytes (get_apod_date argv today).1 = [] ∧
    ((get_apod_date argv today).1.all (fun e => isPrintEv e || isExitEv e)) = true := by
  cases hv : argv[2]? with
  | none =>
    rw [gad_eq_default argv today hv]
    exact ⟨rfl, rfl, rfl⟩
  | some d =>
    cases hs : strptimeYmd d with
    | true =>
      rw [gad_eq_ok argv today d hv hs]
      exact ⟨rfl, rfl, rfl⟩
    | false =>
      rw [gad_eq_bad argv today d hv hs]
      exact ⟨rfl, rfl, rfl⟩

theorem mainRun_eq_dirfail (env : Env) (db : List ApodRecord)
    (h : (get_image_dir_path env.isdir env.argv).2 = none) :
    mainRun env db = ((get_image_dir_path env.isdir env.argv).1, db) := by
  unfold mainRun
  dsimp only
  rw [h]

theorem mainRun_eq_datefail (env : Env) (db : List ApodRecord) (d : String)
    (hdir : (get_image_dir_path env.isdir env.argv).2 = some d)
    (hdate : (get_apod_date env.argv env.today).2 = none) :
    mainRun env db =
      ((get_image_dir_path env.isdir env.argv).1 ++
       (get_apod_date env.argv env.today).1, db) := by
  unfold mainRun
  dsimp only
  rw [hdir]
  dsimp only
  rw [hdate]

theorem mainRun_eq_core (env : Env) (db : List ApodRecord) (d a : String)
    (hdir : (get_image_dir_path env.isdir env.argv).2 = some d)
    (hdate : (get_apod_date env.argv env.today).2 = some a) :
    mainRun env db =
      ((get_image_dir_path env.isdir env.argv).1 ++
       (get_apod_date env.argv env.today).1 ++ (mainCore env d a db).1,
       (mainCore env d a db).2) := by
  unfold mainRun
  dsimp only
  rw [hdir]
  dsimp only
  rw [hdate]

theorem mainCore_cases (env : Env) (d a : String) (db : List ApodRecord) :
    (computedSha env ∈ dbHashes db ∧
      (mainCore env d a db).1.filter isFileWriteEv = [] ∧
      writtenBytes (mainCore env d a db).1 = [] ∧
      (mainCore env d a db).2 = db) ∨
    (computedSha env ∉ dbHashes db ∧
      (mainCore env d a db).1.filter isFileWriteEv =
        [Event.fileWrite (get_image_path env.image_url d) (env.fetch 1)] ∧
      writtenBytes (mainCore env d a db).1 = [env.fetch 1] ∧
      (mainCore env d a db).2 =
        db ++ [⟨get_image_path env.image_url d, (env.fetch 0).length,
               computedSha env, env.timeNow⟩]) := by
  by_cases hmem : computedSha env ∈ dbHashes db
  · left
    have hc : (image_already_in_db db
        (env.hashHex (strEncode env.image_url))).2 = true :=
      (image_already_in_db_mem db _).mpr hmem
    refine ⟨hmem, ?_, ?_, ?_⟩ <;>
      simp [mainCore, hc, create_image_db_id, image_already_in_db_fst,
        writtenBytes, isFileWriteEv]
  · right
    have hc : (image_already_in_db db
        (env.hashHex (strEncode env.image_url))).2 = false := by
      cases hb : (image_already_in_db db (env.hashHex (strEncode env.image_url))).2 with
      | false => rfl
      | true => exact absurd ((image_already_in_db_mem db _).mp hb) hmem
    refine ⟨hmem, ?_, ?_, ?_⟩ <;>
      simp [mainCore, hc, create_image_db_id, image_already_in_db_fst,
        add_image_to_db, runStmt, writtenBytes, isFileWriteEv, computedSha]

theorem mainRun_cases (env : Env) (db : List ApodRecord) :
    ((mainRun env db).1.filter isFileWriteEv = [] ∧
      writtenBytes (mainRun env db).1 = [] ∧
      (mainRun env db).2 = db) ∨
    ((mainRun env db).1.filter isFileWriteEv =
        [Event.fileWrite (get_image_path env.image_url ((env.argv[1]?).getD ""))
          (env.fetch 1)] ∧
      writtenBytes (mainRun env db).1 = [env.fetch 1] ∧
      (mainRun env db).2 = db ++ [insertedRecord env] ∧
      computedSha env ∉ dbHashes db) := by
  cases hdir : (get_image_dir_path env.isdir env.argv).2 with
  | none =>
    left
    rcases get_image_dir_path_events env.isdir env.argv with ⟨e1, e2, -⟩
    rw [mainRun_eq_dirfail env db hdir]
    exact ⟨e1, e2, rfl⟩
  | some image_dir_path =>
    have harg : env.argv[1]? = some image_dir_path :=
      ((get_image_dir_path_some_iff env.isdir env.argv image_dir_path).mp hdir).1
    rcases get_image_dir_path_events env.isdir env.argv with ⟨d1, d2, -⟩
    cases hdate : (get_apod_date env.argv env.today).2 with
    | none =>
      left
      rcases get_apod_date_events env.argv env.today with ⟨t1, t2, -⟩
      rw [mainRun_eq_datefail env db image_dir_path hdir hdate]
      refine ⟨?_, ?_, rfl⟩
      · dsimp only
        rw [List.filter_append, d1, t1]
        rfl
      · unfold writtenBytes at d2 t2 ⊢
        dsimp only
        rw [List.filterMap_append, d2, t2]
        rfl
    | some apod_date =>
      rcases get_apod_date_events env.argv env.today with ⟨t1, t2, -⟩
      rw [mainRun_eq_core env db image_dir_path apod_date hdir hdate]
      rcases mainCore_cases env image_dir_path apod_date db with
        ⟨hmem, c1, c2, c3⟩ | ⟨hmem, c1, c2, c3⟩
      · left
        refine ⟨?_, ?_, c3⟩
        · dsimp only
          rw [List.filter_append, List.filter_append, d1, t1, c1]
          rfl
        · unfold writtenBytes at d2 t2 c2 ⊢
          dsimp only
          rw [List.filterMap_append, List.filterMap_append, d2, t2, c2]
          rfl
      · right
        rw [harg]
        refine ⟨?_, ?_, ?_, hmem⟩
        · dsimp only
          rw [List.filter_append, List.filter_append, d1, t1, c1]
          rfl
        · unfold writtenBytes at d2 t2 c2 ⊢
          dsimp only
          rw [List.filterMap_append, List.filterMap_append, d2, t2, c2]
          rfl
        · dsimp only
          rw [c3]
          unfold insertedRecord
          rw [harg]
          simp only [Option.getD_some]

theorem mainRun_db_or (env : Env) (db : List ApodRecord) :
    (mainRun env db).2 = db ∨
    ((mainRun env db).2 = db ++ [insertedRecord env] ∧
      computedSha env ∉ dbHashes db) := by
  rcases mainRun_cases env db with ⟨-, -, h⟩ | ⟨-, -, h, hm⟩
  · exact Or.inl h
  · exact Or.inr ⟨h, hm⟩

theorem mainRun_nodup (env : Env) (db : List ApodRecord)
    (h : (dbHashes db).Nodup) : (dbHashes (mainRun env db).2).Nodup := by
  rcases mainRun_db_or env db with he | ⟨he, hm⟩
  · rw [he]; exact h
  · rw [he, dbHashes_append]
    have hsha : dbHashes [insertedRecord env] = [computedSha env] := rfl
    rw [hsha]
    simp only [List.nodup_append, List.nodup_singleton, true_and,
      List.disjoint_singleton]
    exact ⟨h, hm⟩

theorem runAll_nodup (envs : List Env) :
    ∀ db : List ApodRecord, (dbHashes db).Nodup → (dbHashes (runAll envs db)).Nodup := by
  induction envs with
  | nil => exact fun db h => h
  | cons e es ih => exact fun db h => ih _ (mainRun_nodup e db h)

theorem mainRun_stable (env : Env) (db : List ApodRecord)
    (h : computedSha env ∈ dbHashes db) : (mainRun env db).2 = db := by
  rcases mainRun_db_or env db with he | ⟨-, hm⟩
  · exact he
  · exact absurd h hm

theorem mainRun_idem (env : Env) (db : List ApodRecord) :
    (mainRun env (mainRun env db).2).2 = (mainRun env db).2 := by
  rcases mainRun_db_or env db with he | ⟨he, -⟩
  · rw [he]
    exact he
  · rw [he]
    apply mainRun_stable
    rw [dbHashes_append]
    simp [dbHashes, insertedRecord]

theorem buildDB_hashes_from (calls : List (String × Nat × String × String)) :
    ∀ db : List ApodRecord,
      dbHashes (calls.foldl
        (fun d c => add_image_to_db d c.1 c.2.1 c.2.2.1 c.2.2.2) db) =
      dbHashes db ++ calls.map (fun c => c.2.2.1) := by
  induction calls with
  | nil => intro db; simp
  | cons c cs ih =>
    intro db
    simp only [List.foldl_cons, List.map_cons]
    rw [ih]
    simp [add_image_to_db, runStmt, dbHashes]

theorem all_imp_events {l : List Event} {p q : Event → Bool} (h : l.all p = true)
    (himp : ∀ e, p e = true → q e = true) : l.all q = true := by
  rw [List.all_eq_true] at h ⊢
  exact fun e he => himp e (h e he)

theorem benign_no_net_db (e : Event)
    (h : (isPrintEv e || isExitEv e || isPyErrorEv e) = true) :
    (!(isNetGetEv e) && !(isDbConnectEv e)) = true := by
  cases e <;> simp_all [isPrintEv, isExitEv, isPyErrorEv, isNetGetEv, isDbConnectEv]

/-! ### Claim theorems -/

/-- C1 (code_bug evidence): the only record a run can insert carries
`image_sha256 = hashHex (strEncode image_url)` — the hex digest of the URL
string's UTF-8 bytes (source line 48), not of the downloaded image bytes; in
the concrete run `demoEnv` the stored digest differs from the digest of the
downloaded bytes `fetch 1 = [1, 2, 3]`, although the code's own docstrings
call the stored value the "SHA-256 of image". -/
theorem content_hash_is_digest_of_url_not_image_bytes :
    (∀ (env : Env) (db : List ApodRecord),
      (mainRun env db).2 = db ∨ (mainRun env db).2 = db ++ [insertedRecord env]) ∧
    (∀ env : Env,
      (insertedRecord env).image_sha256 = env.hashHex (strEncode env.image_url)) ∧
    dbHashes (mainRun demoEnv []).2 = [demoHashHex (strEncode "https://x/img.jpg")] ∧
    demoHashHex (strEncode "https://x/img.jpg") ≠ demoHashHex (demoEnv.fetch 1) := by
  refine ⟨?_, ?_, ?_, ?_⟩
  · intro env db
    rcases mainRun_db_or env db with h | ⟨h, -⟩
    · exact Or.inl h
    · exact Or.inr h
  · intro env
    rfl
  · decide
  · decide

/-- C2 counterexample: a run whose computed digest is already in the store
(`demoDbWithHash`) performs no file write at all and leaves the store
unchanged — refuting the claim that the image file is written unconditionally
on every run. -/
theorem run_with_known_hash_writes_no_file :
    ((mainRun demoEnv demoDbWithHash).1.all (fun e => !(isFileWriteEv e))) = true ∧
    (mainRun demoEnv demoDbWithHash).2 = demoDbWithHash := by
  exact ⟨by decide, by decide⟩

/-- C2 (amended): the file write and the database insert are gated together
by the hash-existence check — every run either writes no file and leaves the
store unchanged, or (exactly when the computed digest is absent) writes the
file once and inserts exactly one record. -/
theorem file_write_and_db_insert_both_hash_gated :
    ∀ (env : Env) (db : List ApodRecord),
      ((mainRun env db).1.filter isFileWriteEv = [] ∧ (mainRun env db).2 = db) ∨
      ((mainRun env db).1.filter isFileWriteEv =
          [Event.fileWrite (get_image_path env.image_url ((env.argv[1]?).getD ""))
            (env.fetch 1)] ∧
        (mainRun env db).2 = db ++ [insertedRecord env] ∧
        computedSha env ∉ dbHashes db) := by
  intro env db
  rcases mainRun_cases env db with ⟨h1, -, h3⟩ | ⟨h1, -, h3, hm⟩
  · exact Or.inl ⟨h1, h3⟩
  · exact Or.inr ⟨h1, h3, hm⟩

/-- C2 witness: instance of the gating theorem at a concrete run. -/
theorem file_write_and_db_insert_both_hash_gated_witness :
    ((mainRun demoEnv demoDbWithHash).1.filter isFileWriteEv = [] ∧
      (mainRun demoEnv demoDbWithHash).2 = demoDbWithHash) ∨
    ((mainRun demoEnv demoDbWithHash).1.filter isFileWriteEv =
        [Event.fileWrite (get_image_path demoEnv.image_url ((demoEnv.argv[1]?).getD ""))
          (demoEnv.fetch 1)] ∧
      (mainRun demoEnv demoDbWithHash).2 = demoDbWithHash ++ [insertedRecord demoEnv] ∧
      computedSha demoEnv ∉ dbHashes demoDbWithHash) :=
  file_write_and_db_insert_both_hash_gated demoEnv demoDbWithHash

/-- C3: starting from the empty store, after any sequence of runs the stored
`image_sha256` values are pairwise distinct; repeating a run is idempotent on
the store; and two identical runs from empty leave exactly the one record for
the computed digest. -/
theorem store_never_holds_duplicate_hashes :
    (∀ envs : List Env, (dbHashes (runAll envs [])).Nodup) ∧
    (∀ (env : Env) (db : List ApodRecord),
      (mainRun env (mainRun env db).2).2 = (mainRun env db).2) ∧
    dbHashes (runAll [demoEnv, demoEnv] []) = [computedSha demoEnv] := by
  refine ⟨?_, mainRun_idem, ?_⟩
  · intro envs
    exact runAll_nodup envs [] (by simp [dbHashes])
  · decide

/-- C4: a record inserted by `add_image_to_db` with digest `h` is found by
`image_already_in_db` under the same digest; a digest never passed to any
insert is not found in a store built from the empty table by inserts. -/
theorem add_then_lookup_roundtrip (db : List ApodRecord) (p : String) (sz : Nat)
    (h t : String) (calls : List (String × Nat × String × String)) (h2 : String)
    (hnew : h2 ∉ calls.map (fun c => c.2.2.1)) :
    (image_already_in_db (add_image_to_db db p sz h t) h).2 = true ∧
    (image_already_in_db (buildDB calls) h2).2 = false := by
  constructor
  · apply (image_already_in_db_mem _ _).mpr
    rw [show add_image_to_db db p sz h t = db ++ [⟨p, sz, h, t⟩] from rfl,
      dbHashes_append]
    simp [dbHashes]
  · cases hb : (image_already_in_db (buildDB calls) h2).2 with
    | false => rfl
    | true =>
      have hmem := (image_already_in_db_mem _ _).mp hb
      unfold buildDB at hmem
      rw [buildDB_hashes_from calls []] at hmem
      simp only [dbHashes, List.map_nil, List.nil_append] at hmem
      exact absurd hmem hnew

/-- C4 witness: the round trip evaluated at a concrete store. -/
theorem add_then_lookup_roundtrip_witness :
    ("h2" ∉ ([("C:\\a", 3, "h1", "t")] :
        List (String × Nat × String × String)).map (fun c => c.2.2.1)) ∧
    ((image_already_in_db (add_image_to_db [] "p" 3 "h1" "t") "h1").2 = true ∧
      (image_already_in_db (buildDB [("C:\\a", 3, "h1", "t")]) "h2").2 = false) :=
  ⟨by decide,
   add_then_lookup_roundtrip [] "p" 3 "h1" "t" [("C:\\a", 3, "h1", "t")] "h2"
     (by decide)⟩

/-- C5 counterexample: with a filesystem in which every string names an
existing directory, the argument "/" names an existing directory and yet the
resolver rejects the run (its length-two guard fires), printing the missing
parameter error — refuting acceptance "iff the argument names an existing
directory". -/
theorem one_char_existing_directory_rejected :
    (get_image_dir_path (fun _ => true) ["apod_desktop.py", "/"]).2 = none ∧
    (get_image_dir_path (fun _ => true) ["apod_desktop.py", "/"]).1 =
      [Event.printEv "Error: Missing path parameter.",
       Event.exitEv "Script execution aborted"] ∧
    (fun (_ : String) => true) "/" = true := by
  exact ⟨by decide, by decide, rfl⟩

/-- C5 (amended): the resolver accepts the first argument iff it is present,
has length at least two, and names an existing directory; on rejection the
run stops with only the resolver's print/exit events (no network, store,
file or wallpaper activity). -/
theorem dir_resolver_accepts_iff_long_enough_and_isdir :
    (∀ (isdir : String → Bool) (argv : List String) (x : String),
      (get_image_dir_path isdir argv).2 = some x ↔
        (argv[1]? = some x ∧ 2 ≤ x.data.length ∧ isdir x = true)) ∧
    (∀ (env : Env) (db : List ApodRecord),
      (get_image_dir_path env.isdir env.argv).2 = none →
        mainRun env db = ((get_image_dir_path env.isdir env.argv).1, db)) ∧
    (∀ (isdir : String → Bool) (argv : List String),
      ((get_image_dir_path isdir argv).1.all
        (fun e => isPrintEv e || isExitEv e || isPyErrorEv e)) = true) := by
  refine ⟨get_image_dir_path_some_iff, mainRun_eq_dirfail, ?_⟩
  intro isdir argv
  exact (get_image_dir_path_events isdir argv).2.2

/-- C5 witness: the acceptance condition discharged at a concrete argument. -/
theorem dir_resolver_accepts_iff_witness :
    (get_image_dir_path (fun s => s == "C:\\apod")
      ["apod_desktop.py", "C:\\apod"]).2 = some "C:\\apod" :=
  (dir_resolver_accepts_iff_long_enough_and_isdir.1 (fun s => s == "C:\\apod")
    ["apod_desktop.py", "C:\\apod"] "C:\\apod").mpr (by decide)

/-- C6 (code_bug evidence): with no date argument the resolver returns
`datetime.today().isoformat()` unvalidated; that value carries the time-of-day
suffix and fails the strict format check the resolver applies to supplied
dates, although its docstring promises a `YYYY-MM-DD` string. -/
theorem default_date_fails_own_format_validation :
    (∀ (p d : String) (t : PyDateTime),
      (get_apod_date [p, d] t).2 = some (isoformatDatetime t)) ∧
    isoformatDatetime ⟨2026, 10, 12, 8, 30, 0, 123456⟩ = "2026-10-12T08:30:00.123456" ∧
    strptimeYmd (isoformatDatetime ⟨2026, 10, 12, 8, 30, 0, 123456⟩) = false := by
  refine ⟨?_, by decide, by decide⟩
  intro p d t
  rw [gad_eq_default [p, d] t rfl]

/-- C7 counterexample: when the two GETs of the image URL return different
bodies, the inserted record's `image_size` is the length of the first body
while the saved file holds the second body — and the run issues two GETs of
the image URL, refuting "one HTTP response, no separate request". -/
theorem stored_size_not_length_of_saved_bytes :
    (mainRun demoEnvTwoFetch []).2.map (fun r => r.image_size) = [1] ∧
    writtenBytes (mainRun demoEnvTwoFetch []).1 = [[]] ∧
    (mainRun demoEnvTwoFetch []).1.count (Event.netGet "https://x/img.jpg") = 2 := by
  exact ⟨by decide, by decide, by decide⟩

/-- C7 (amended): the stored `image_size` is the byte length of the first
image GET's body, and the saved file's bytes are the second image GET's body;
the two agree exactly when the two responses agree. -/
theorem size_from_first_fetch_bytes_from_second :
    ∀ (env : Env) (db : List ApodRecord),
      (writtenBytes (mainRun env db).1 = [] ∧ (mainRun env db).2 = db) ∨
      (writtenBytes (mainRun env db).1 = [env.fetch 1] ∧
        (mainRun env db).2 = db ++ [insertedRecord env] ∧
        (insertedRecord env).image_size = (env.fetch 0).length) := by
  intro env db
  rcases mainRun_cases env db with ⟨-, h2, h3⟩ | ⟨-, h2, h3, -⟩
  · exact Or.inl ⟨h2, h3⟩
  · exact Or.inr ⟨h2, h3, rfl⟩

/-- C8: a run whose supplied date argument fails the strict format check
performs no network GET and opens no database connection (so the store file
is never created by that run), and leaves the store unchanged. -/
theorem invalid_date_stops_before_network_and_store (env : Env)
    (db : List ApodRecord) (d : String) (hd : env.argv[2]? = some d)
    (hbad : strptimeYmd d = false) :
    ((mainRun env db).1.all (fun e => !(isNetGetEv e) && !(isDbConnectEv e))) = true ∧
    (mainRun env db).2 = db := by
  cases hdir : (get_image_dir_path env.isdir env.argv).2 with
  | none =>
    rw [mainRun_eq_dirfail env db hdir]
    exact ⟨all_imp_events (get_image_dir_path_events env.isdir env.argv).2.2
      benign_no_net_db, rfl⟩
  | some x =>
    have hdate : (get_apod_date env.argv env.today).2 = none := by
      rw [gad_eq_bad env.argv env.today d hd hbad]
    rw [mainRun_eq_datefail env db x hdir hdate]
    refine ⟨?_, rfl⟩
    dsimp only
    rw [gad_eq_bad env.argv env.today d hd hbad, List.all_append]
    rw [all_imp_events (get_image_dir_path_events env.isdir env.argv).2.2
      benign_no_net_db]
    rfl

/-- C8 witness: the guarantee discharged on a concrete run with the malformed
date "12-31-2022". -/
theorem invalid_date_stops_witness :
    demoEnvBadDate.argv[2]? = some "12-31-2022" ∧
    strptimeYmd "12-31-2022" = false ∧
    (((mainRun demoEnvBadDate []).1.all
        (fun e => !(isNetGetEv e) && !(isDbConnectEv e))) = true ∧
      (mainRun demoEnvBadDate []).2 = []) :=
  ⟨rfl, by decide,
   invalid_date_stops_before_network_and_store demoEnvBadDate [] "12-31-2022"
     rfl (by decide)⟩

/-- C9: the local image path is the directory path joined, with the Windows
separator, to the basename of the image URL; splitting the result at path
separators yields the directory's components followed by exactly that
basename, so the file lies directly inside the directory. -/
theorem image_path_is_dir_join_url_basename :
    ∀ image_url dir_path : String,
      get_image_path image_url dir_path = dir_path ++ "\\" ++ basename image_url ∧
      splitBy isSepChar (get_image_path image_url dir_path).data =
        splitBy isSepChar dir_path.data ++ [(basename image_url).data] := by
  intro image_url dir_path
  refine ⟨rfl, ?_⟩
  have hdata : (get_image_path image_url dir_path).data =
      dir_path.data ++ '\\' :: (basename image_url).data := by
    show (dir_path ++ "\\" ++ basename image_url).data = _
    rw [string_data_append, string_data_append, List.append_assoc]
    rfl
  rw [hdata]
  apply splitBy_append_sep
  · rfl
  · intro c hc
    exact splitBy_last_no_sep isSepChar image_url.data c hc

/-- C10: the existence check is read-only — both the modelled
`image_already_in_db` call and the underlying SELECT statement return the
table unchanged. -/
theorem existence_check_is_readonly :
    ∀ (db : List ApodRecord) (h : String),
      (image_already_in_db db h).1 = db ∧
      (runStmt db (SqlStmt.selectSha h)).1 = db := by
  intro db h
  exact ⟨rfl, rfl⟩

end ApodDesktop
